import Mathlib

set_option maxRecDepth 10000

/-!
Verification of the streaming chat relay (Supabase edge function).

The development embeds, as executable Lean definitions, the parts of the
source that the verified properties concern:

* the JSON values produced by `JSON.parse` and the member-access /
  truthiness semantics the extraction code relies on
  (`src/supabase/functions/_shared/gemini-client.ts`);
* the streaming reassembly loop of `GeminiClient.generateStreamingResponse`
  (brace scanner, buffer management, per-object payload extraction);
* the SSE wire framing and stream state machine of `SSEStream`
  (`sse-utils`, lines 560-815 of the bundled sources);
* the chat-service request/response glue (`chat-service.ts`) and the
  anonymous authentication stub (`auth-validator.ts`).

Chunks are modelled at the character level (the source decodes bytes with a
streaming `TextDecoder`, so a character is never split by the time the
buffer logic runs).
-/

/-! ## Characters: JS `\s`-or-comma separators and JSON whitespace -/

/-- The character class of the regex `/[\s,]/` used by the reassembly loop
(lines 351 and 359 of `gemini-client.ts`): JS `\s` (space, tab, newline,
carriage return, vertical tab, form feed, NBSP, BOM and the Unicode space
separators) or a comma. -/
def isSep (c : Char) : Bool :=
  c = ' ' || c = '\t' || c = '\n' || c = '\r' || c = '\x0b' || c = '\x0c' ||
  c = ',' || c = ' ' || c = ' ' ||
  (0x2000 ≤ c.toNat && c.toNat ≤ 0x200a) ||
  c = ' ' || c = ' ' || c = ' ' || c = ' ' || c = '　' ||
  c = '﻿'

/-- JSON (RFC 8259) insignificant whitespace, as accepted by `JSON.parse`. -/
def jsonWs (c : Char) : Bool :=
  c = ' ' || c = '\t' || c = '\n' || c = '\r'

/-- The opening brace character, written by code point. -/
def obrace : Char := '\x7b'

/-- The closing brace character, written by code point. -/
def cbrace : Char := '\x7d'

/-- Whether a character is not the opening brace. -/
def notBrace (c : Char) : Bool := if c = obrace then false else true

/-! ## JSON values

`Json` mirrors the values `JSON.parse` can return.  Numbers keep their
lexed token (the relay never computes with them; only truthiness of a
number is ever consulted, which needs only a zero test on the mantissa).
The three types are mutually inductive so that all recursions over them
are structural and compute inside the kernel. -/

mutual

inductive Json where
  | null : Json
  | bool (b : Bool) : Json
  | num (raw : String) : Json
  | str (s : String) : Json
  | arr (xs : JsonList) : Json
  | obj (fs : JsonFields) : Json

inductive JsonList where
  | nil : JsonList
  | cons (hd : Json) (tl : JsonList) : JsonList

inductive JsonFields where
  | nil : JsonFields
  | cons (key : String) (val : Json) (tl : JsonFields) : JsonFields

end

/-- Convert a `JsonList` to an ordinary list. -/
def JsonList.toList : JsonList → List Json
  | .nil => []
  | .cons x xs => x :: xs.toList

/-- Convert a `JsonFields` to an ordinary association list. -/
def JsonFields.toList : JsonFields → List (String × Json)
  | .nil => []
  | .cons k v fs => (k, v) :: fs.toList

/-- Property lookup on a JS object: with duplicate keys the later binding
wins, as in an object built by `JSON.parse`. -/
def lookupLast : List (String × Json) → String → Option Json
  | [], _ => none
  | (k, v) :: rest, key =>
    match lookupLast rest key with
    | some r => some r
    | none => if k = key then some v else none

/-- The digits of a JSON number token before any exponent marker. -/
def numMantissa (s : String) : List Char :=
  s.data.takeWhile (fun c => c ≠ 'e' ∧ c ≠ 'E')

/-- Whether a JSON number token denotes zero: no nonzero digit in the
mantissa. -/
def numIsZero (s : String) : Bool :=
  (numMantissa s).all (fun c => !(c.isDigit && c ≠ '0'))

/-- JS truthiness of a JSON value: `null`, `false`, `0` and `""` are falsy;
every array and object is truthy. -/
def truthy : Json → Bool
  | .null => false
  | .bool b => b
  | .num raw => !numIsZero raw
  | .str s => !s.isEmpty
  | .arr _ => true
  | .obj _ => true

/-- JS member access `v.key` (equivalently `v["key"]`) on a parsed JSON
value, `none` standing for `undefined`.  Named properties exist only on
objects; on strings, numbers and booleans the properties the relay reads
(`candidates`, `content`, `parts`, `text`) are all `undefined`. -/
def getProp (j : Json) (key : String) : Option Json :=
  match j with
  | .obj fs => lookupLast fs.toList key
  | _ => none

/-- JS element access `v[0]` on a parsed JSON value: the first element of
an array, the `"0"` property of an object, the one-character string for a
nonempty string, `undefined` otherwise. -/
def index0 (j : Json) : Option Json :=
  match j with
  | .arr (.cons x _) => some x
  | .arr .nil => none
  | .obj fs => lookupLast fs.toList "0"
  | .str s =>
    match s.data with
    | [] => none
    | c :: _ => some (.str (String.mk [c]))
  | _ => none

/-! ## A model of `JSON.parse`

A recursive-descent parser over `List Char`, following the JSON grammar
that `JSON.parse` accepts (strict: no trailing commas, no leading zeros,
no control characters inside strings, escape sequences limited to the RFC
set).  The structural fuel argument only bounds nesting; `parseJsonChars`
passes enough fuel for any input. -/

/-- Parse the four hex digits of a `\u` escape; `none` if a digit is bad. -/
def parseHex4 : List Char → Option (Nat × List Char)
  | a :: b :: c :: d :: rest =>
    let dig := fun (x : Char) =>
      if x.isDigit then some (x.toNat - '0'.toNat)
      else if 'a' ≤ x ∧ x ≤ 'f' then some (x.toNat - 'a'.toNat + 10)
      else if 'A' ≤ x ∧ x ≤ 'F' then some (x.toNat - 'A'.toNat + 10)
      else none
    match dig a, dig b, dig c, dig d with
    | some x, some y, some z, some w => some ((((x * 16 + y) * 16 + z) * 16 + w), rest)
    | _, _, _, _ => none
  | _ => none

/-- Parse the body of a JSON string (after the opening quote), returning
the decoded characters and the input after the closing quote.  The fuel
only needs to cover the length of the input; every call consumes at least
one character. -/
def parseStringBodyAux : Nat → List Char → Option (List Char × List Char)
  | 0, _ => none
  | _, [] => none
  | fuel + 1, c :: rest =>
    if c = '"' then some ([], rest)
    else if c = '\\' then
      match rest with
      | [] => none
      | e :: rest2 =>
        let decoded : Option (Char × List Char) :=
          if e = '"' then some ('"', rest2)
          else if e = '\\' then some ('\\', rest2)
          else if e = '/' then some ('/', rest2)
          else if e = 'b' then some ('\x08', rest2)
          else if e = 'f' then some ('\x0c', rest2)
          else if e = 'n' then some ('\n', rest2)
          else if e = 'r' then some ('\r', rest2)
          else if e = 't' then some ('\t', rest2)
          else if e = 'u' then
            match parseHex4 rest2 with
            | some (n, rest3) => some (Char.ofNat n, rest3)
            | none => none
          else none
        match decoded with
        | some (d, rest3) =>
          match parseStringBodyAux fuel rest3 with
          | some (cs, rem) => some (d :: cs, rem)
          | none => none
        | none => none
    else if c.toNat < 0x20 then none
    else
      match parseStringBodyAux fuel rest with
      | some (cs, rem) => some (c :: cs, rem)
      | none => none

/-- Parse the body of a JSON string (after the opening quote). -/
def parseStringBody (cs : List Char) : Option (List Char × List Char) :=
  parseStringBodyAux (cs.length + 1) cs

/-- Lex a JSON number token (already known to start with `-` or a digit),
returning the raw token and the rest; `none` if malformed. -/
def parseNumberToken (cs : List Char) : Option (String × List Char) :=
  let (sign, cs1) :=
    match cs with
    | '-' :: rest => (['-'], rest)
    | _ => (([] : List Char), cs)
  let intPart := cs1.takeWhile Char.isDigit
  let cs2 := cs1.dropWhile Char.isDigit
  if intPart = [] then none
  else if intPart.length > 1 ∧ intPart.headD '0' = '0' then none
  else
    let (frac, cs3) :=
      match cs2 with
      | '.' :: rest =>
        let ds := rest.takeWhile Char.isDigit
        if ds = [] then (none, cs2) else (some ('.' :: ds), rest.dropWhile Char.isDigit)
      | _ => (none, cs2)
    match frac, cs3 with
    | none, '.' :: _ => none
    | _, _ =>
      let fracCs := frac.getD []
      let (expPart, cs4) :=
        match cs3 with
        | e :: rest =>
          if e = 'e' ∨ e = 'E' then
            let (sgn, rest2) :=
              match rest with
              | s :: r2 => if s = '+' ∨ s = '-' then ([s], r2) else (([] : List Char), rest)
              | [] => ([], rest)
            let ds := rest2.takeWhile Char.isDigit
            if ds = [] then (none, cs3)
            else (some (e :: (sgn ++ ds)), rest2.dropWhile Char.isDigit)
          else (none, cs3)
        | [] => (none, cs3)
      match expPart, cs4 with
      | none, e :: _ =>
        if e = 'e' ∨ e = 'E' then none
        else some (String.mk (sign ++ intPart ++ fracCs), cs4)
      | none, [] => some (String.mk (sign ++ intPart ++ fracCs), cs4)
      | some ex, _ => some (String.mk (sign ++ intPart ++ fracCs ++ ex), cs4)

/-- Reverse a `JsonList` onto an accumulator. -/
def revList : JsonList → JsonList → JsonList
  | .nil, acc => acc
  | .cons x xs, acc => revList xs (.cons x acc)

/-- Reverse a `JsonFields` onto an accumulator. -/
def revFields : JsonFields → JsonFields → JsonFields
  | .nil, acc => acc
  | .cons k v fs, acc => revFields fs (.cons k v acc)

mutual

/-- Parse one JSON value after skipping leading whitespace. -/
def parseValue : Nat → List Char → Option (Json × List Char)
  | 0, _ => none
  | fuel + 1, cs =>
    match cs.dropWhile jsonWs with
    | [] => none
    | c :: rest =>
      if c = '"' then
        match parseStringBody rest with
        | some (body, rem) => some (.str (String.mk body), rem)
        | none => none
      else if c = obrace then parseMembers fuel rest .nil true
      else if c = '[' then parseElements fuel rest .nil true
      else if c = 'n' then
        match rest with
        | 'u' :: 'l' :: 'l' :: rem => some (.null, rem)
        | _ => none
      else if c = 't' then
        match rest with
        | 'r' :: 'u' :: 'e' :: rem => some (.bool true, rem)
        | _ => none
      else if c = 'f' then
        match rest with
        | 'a' :: 'l' :: 's' :: 'e' :: rem => some (.bool false, rem)
        | _ => none
      else if c = '-' ∨ c.isDigit then
        match parseNumberToken (c :: rest) with
        | some (tok, rem) => some (.num tok, rem)
        | none => none
      else none

/-- Parse the members of an object after the opening brace.  `first` is
true before any member has been read (so a closing brace is allowed). -/
def parseMembers : Nat → List Char → JsonFields → Bool → Option (Json × List Char)
  | 0, _, _, _ => none
  | fuel + 1, cs, acc, first =>
    match cs.dropWhile jsonWs with
    | [] => none
    | c :: rest =>
      if c = cbrace ∧ first then some (.obj (revFields acc .nil), rest)
      else if c = '"' then
        match parseStringBody rest with
        | some (key, rem) =>
          match rem.dropWhile jsonWs with
          | ':' :: rem2 =>
            match parseValue fuel rem2 with
            | some (v, rem3) =>
              match rem3.dropWhile jsonWs with
              | ',' :: rem4 => parseMembers fuel rem4 (.cons (String.mk key) v acc) false
              | d :: rem4 =>
                if d = cbrace then
                  some (.obj (revFields (.cons (String.mk key) v acc) .nil), rem4)
                else none
              | [] => none
            | none => none
          | _ => none
        | none => none
      else none

/-- Parse the elements of an array after the opening bracket. -/
def parseElements : Nat → List Char → JsonList → Bool → Option (Json × List Char)
  | 0, _, _, _ => none
  | fuel + 1, cs, acc, first =>
    match cs.dropWhile jsonWs with
    | [] => none
    | c :: rest =>
      if c = ']' ∧ first then some (.arr (revList acc .nil), rest)
      else
        match parseValue fuel (c :: rest) with
        | some (v, rem) =>
          match rem.dropWhile jsonWs with
          | ',' :: rem2 => parseElements fuel rem2 (.cons v acc) false
          | ']' :: rem2 => some (.arr (revList (.cons v acc) .nil), rem2)
          | _ => none
        | none => none

end

/-- Model of `JSON.parse` on a character sequence: one value surrounded
only by whitespace.  The fuel `2 * length + 4` exceeds the nesting depth
of any input. -/
def parseJsonChars (cs : List Char) : Option Json :=
  match parseValue (2 * cs.length + 4) cs with
  | some (j, rest) => if rest.dropWhile jsonWs = [] then some j else none
  | none => none

/-- Model of `JSON.parse` on a string. -/
def parseJsonStr (s : String) : Option Json :=
  parseJsonChars s.data

/-! ## Per-object payload extraction

Lines 422-427 of `gemini-client.ts`:

```
if (data.candidates && data.candidates[0] && data.candidates[0].content) {
  const parts = data.candidates[0].content.parts;
  if (parts && parts[0] && parts[0].text) {
    yield parts[0].text;
  }
}
```
-/

/-- Truthiness of a possibly-`undefined` value. -/
def truthyO : Option Json → Bool
  | none => false
  | some j => truthy j

/-- The fragments the generator yields for one successfully parsed object:
the `text` of the first part of the first candidate, provided every link
of the access chain is truthy; nothing otherwise. -/
def yieldOf (data : Json) : List Json :=
  let cands := getProp data "candidates"
  let c0 := cands.bind index0
  let content := c0.bind (fun j => getProp j "content")
  if truthyO cands && truthyO c0 && truthyO content then
    let parts := content.bind (fun j => getProp j "parts")
    let p0 := parts.bind index0
    let ptext := p0.bind (fun j => getProp j "text")
    if truthyO parts && truthyO p0 && truthyO ptext then
      match ptext with
      | some t => [t]
      | none => []
    else []
  else []

/-- Modelled from the spec: "locate the first candidate's text payload …
and yield each non-empty text field found, in order" — every non-empty
`text` among the first candidate's content parts, not just the first. -/
def specYieldOf (data : Json) : List Json :=
  match getProp data "candidates" with
  | some (.arr (.cons c0 _)) =>
    match getProp c0 "content" with
    | some content =>
      match getProp content "parts" with
      | some (.arr parts) =>
        parts.toList.filterMap (fun p =>
          match getProp p "text" with
          | some (.str s) => if s.isEmpty then none else some (Json.str s)
          | _ => none)
      | _ => []
    | _ => []
  | _ => []

/-! ## The brace scanner

Lines 377-412 of `gemini-client.ts`: scan for the closing brace matching
the object that starts at the scan origin, with a depth counter that
ignores braces inside string literals and honours backslash escapes.  The
source decrements `braceCount` on a `}` outside a string and stops when it
reaches zero; `braceCount` is an ordinary JS number, hence `Int` here. -/

structure ScanState where
  braceCount : Int
  inString : Bool
  escaped : Bool

/-- The scanner's initial state (lines 378-380). -/
def initScan : ScanState := ⟨0, false, false⟩

/-- Index (relative to the start of the scan) of the character at which
`braceCount` first returns to zero, or `none` if the input ends first. -/
def findClose (st : ScanState) : List Char → Option Nat
  | [] => none
  | c :: rest =>
    if st.escaped then
      (findClose { st with escaped := false } rest).map (· + 1)
    else if c = '\\' then
      (findClose { st with escaped := true } rest).map (· + 1)
    else if c = '"' then
      (findClose { st with inString := !st.inString } rest).map (· + 1)
    else if (!st.inString) ∧ c = obrace then
      (findClose { st with braceCount := st.braceCount + 1 } rest).map (· + 1)
    else if (!st.inString) ∧ c = cbrace then
      if st.braceCount - 1 = 0 then some 0
      else (findClose { st with braceCount := st.braceCount - 1 } rest).map (· + 1)
    else
      (findClose st rest).map (· + 1)

/-! ## One pass of the inner reassembly loop

Lines 356-441 of `gemini-client.ts`.  `startIndexOf` transcribes the
start-index computation (skip separators, then require a `{` or scan
forward to the next one); `extractSpan` combines it with the brace scan
to produce the candidate span and the remaining buffer. -/

/-- Number of leading separator characters (the `while` loop of
lines 358-361). -/
def skipCount (b : List Char) : Nat := (b.takeWhile isSep).length

/-- Model of `buffer.indexOf('{', s)` (line 370): position `s` plus the
length of the brace-free run of the suffix at `s`; `none` (JS `-1`) when
that run reaches the end of the buffer. -/
def indexOfBraceFrom (b : List Char) (s : Nat) : Option Nat :=
  let run := ((b.drop s).takeWhile notBrace).length
  if s + run < b.length then some (s + run) else none

/-- The start index the loop settles on (lines 357-375): after the
separator skip, either the character there is `{`, or `indexOf('{')`
finds the next one; `none` means the iteration breaks. -/
def startIndexOf (b : List Char) : Option Nat :=
  let s := skipCount b
  if s < b.length then
    if (b.drop s).headD ' ' = obrace then some s
    else indexOfBraceFrom b s
  else none

/-- The candidate JSON span (substring from the opening to the matching
closing brace, lines 414-416) and the buffer that remains after removing
it (line 436); `none` when the loop must wait for more data. -/
def extractSpan (b : List Char) : Option (List Char × List Char) :=
  match startIndexOf b with
  | none => none
  | some s =>
    let tail := b.drop s
    match findClose initScan tail with
    | none => none
    | some e => some (tail.take (e + 1), tail.drop (e + 1))

/-- Fragments produced from one candidate span: parse it and extract, or
drop it silently on parse failure (lines 418-433). -/
def fragsOfSpan (span : List Char) : List Json :=
  match parseJsonChars span with
  | some j => yieldOf j
  | none => []

/-- One iteration of the inner `while` loop: either a span is consumed,
yielding its fragments and the shortened buffer, or the loop breaks. -/
def extractOne (b : List Char) : Option (List Json × List Char) :=
  (extractSpan b).map (fun p => (fragsOfSpan p.1, p.2))

/-- The inner loop, run to quiescence, with explicit fuel (each iteration
removes at least one character, so `b.length` steps always suffice). -/
def processAux : Nat → List Char → List Json × List Char
  | 0, b => ([], b)
  | fuel + 1, b =>
    match extractOne b with
    | none => ([], b)
    | some (fs, rest) =>
      let p := processAux fuel rest
      (fs ++ p.1, p.2)

/-- Run the inner loop on a buffer until it waits for more data, returning
the fragments yielded and the remaining buffer. -/
def processBuffer (b : List Char) : List Json × List Char :=
  processAux b.length b

/-- The per-chunk `buffer.replace(/^[\s,]+/, '')` of line 351. -/
def dropSeps (b : List Char) : List Char := b.dropWhile isSep

/-- Deliver one chunk (lines 345-441): append to the buffer, strip leading
separators, then run the inner loop.  The state carries the fragments
yielded so far and the unconsumed buffer. -/
def feedChunk (st : List Json × List Char) (chunk : List Char) : List Json × List Char :=
  let b := dropSeps (st.2 ++ chunk)
  let p := processBuffer b
  (st.1 ++ p.1, p.2)

/-- Deliver a whole sequence of chunks to the reassembly loop, starting
from the empty buffer. -/
def feedAll (chunks : List (List Char)) : List Json × List Char :=
  chunks.foldl feedChunk ([], [])

/-! ## Structural lemmas about the reassembly loop

The start-index search lands on the first `{` of the buffer (everything
before it is a separator that was skipped or junk that `indexOf` scanned
past), so one loop iteration is a function of the buffer's suffix that
starts at its first `{`.  `spanCore` names that function and
`extractSpan_eq` proves the transcribed index computation equal to it. -/

/-- One extraction step on the suffix of the buffer that starts at its
first `{` (the result of `dropWhile notBrace`). -/
def spanCore (tail : List Char) : Option (List Char × List Char) :=
  match findClose initScan tail with
  | none => none
  | some e => some (tail.take (e + 1), tail.drop (e + 1))

theorem sep_not_brace {c : Char} (h : isSep c = true) : notBrace c = true := by
  by_cases hc : c = obrace
  · subst hc; simp [isSep, obrace] at h
  · simp [notBrace, hc]

theorem dropWhile_notBrace_sep_append {s : List Char} (hs : ∀ c ∈ s, isSep c = true)
    (z : List Char) :
    (s ++ z).dropWhile notBrace = z.dropWhile notBrace := by
  have hnil : s.dropWhile notBrace = [] :=
    List.dropWhile_eq_nil_iff.mpr (fun c hc => sep_not_brace (hs c hc))
  rw [List.dropWhile_append, hnil]
  simp

theorem takeWhile_add_dropWhile_length {α : Type} (p : α → Bool) (l : List α) :
    (l.takeWhile p).length + (l.dropWhile p).length = l.length := by
  rw [← List.length_append, List.takeWhile_append_dropWhile]

theorem skipCount_le (b : List Char) : skipCount b ≤ b.length := by
  have := takeWhile_add_dropWhile_length isSep b
  unfold skipCount
  omega

/-- Dropping the length of the `takeWhile` run is the same as
`dropWhile`. -/
theorem drop_takeWhile_length {α : Type} (p : α → Bool) (l : List α) :
    l.drop (l.takeWhile p).length = l.dropWhile p := by
  nth_rewrite 2 [← List.takeWhile_append_dropWhile p l]
  exact List.drop_left _ _

theorem drop_skipCount (b : List Char) : b.drop (skipCount b) = b.dropWhile isSep :=
  drop_takeWhile_length isSep b

theorem dropWhile_notBrace_via_sep (b : List Char) :
    b.dropWhile notBrace = (b.dropWhile isSep).dropWhile notBrace := by
  conv_lhs => rw [← List.takeWhile_append_dropWhile isSep b]
  exact dropWhile_notBrace_sep_append (fun c hc => List.mem_takeWhile_imp hc) _

/-- In the `some` case the start index lands on the buffer's first `{`:
dropping up to it is `dropWhile notBrace`. -/
theorem drop_startIndexOf {b : List Char} {k : Nat} (h : startIndexOf b = some k) :
    b.drop k = b.dropWhile notBrace := by
  unfold startIndexOf at h
  by_cases hlt : skipCount b < b.length
  · simp only [hlt, if_true] at h
    by_cases hhead : (b.drop (skipCount b)).headD ' ' = obrace
    · simp only [hhead, if_true, Option.some.injEq] at h
      subst h
      rw [drop_skipCount, dropWhile_notBrace_via_sep]
      rw [drop_skipCount] at hhead
      cases hcase : b.dropWhile isSep with
      | nil =>
        rw [hcase] at hhead
        simp only [List.headD_nil] at hhead
        exact absurd hhead (by decide)
      | cons c rest =>
        rw [hcase] at hhead
        simp only [List.headD_cons] at hhead
        rw [List.dropWhile_cons]
        simp [notBrace, hhead]
    · simp only [hhead, if_false] at h
      unfold indexOfBraceFrom at h
      by_cases hrun : skipCount b + ((b.drop (skipCount b)).takeWhile notBrace).length < b.length
      · simp only [hrun, if_true, Option.some.injEq] at h
        subst h
        rw [← List.drop_drop, drop_skipCount, drop_takeWhile_length]
        exact (dropWhile_notBrace_via_sep b).symm
      · simp [hrun] at h
  · simp [hlt] at h

/-- In the `none` case the buffer holds no `{` at all. -/
theorem startIndexOf_none {b : List Char} (h : startIndexOf b = none) :
    b.dropWhile notBrace = [] := by
  have hsc : skipCount b = (b.takeWhile isSep).length := rfl
  have hA : (b.takeWhile isSep).length + (b.dropWhile isSep).length = b.length :=
    takeWhile_add_dropWhile_length isSep b
  unfold startIndexOf at h
  by_cases hlt : skipCount b < b.length
  · simp only [hlt, if_true] at h
    by_cases hhead : (b.drop (skipCount b)).headD ' ' = obrace
    · rw [if_pos hhead] at h
      exact Option.noConfusion h
    · rw [if_neg hhead] at h
      unfold indexOfBraceFrom at h
      by_cases hrun : skipCount b + ((b.drop (skipCount b)).takeWhile notBrace).length < b.length
      · simp [hrun] at h
      · have hB : ((b.dropWhile isSep).takeWhile notBrace).length
            + ((b.dropWhile isSep).dropWhile notBrace).length
            = (b.dropWhile isSep).length :=
          takeWhile_add_dropWhile_length notBrace _
        rw [drop_skipCount, hsc] at hrun
        have hdwlen : ((b.dropWhile isSep).dropWhile notBrace).length = 0 := by omega
        rw [dropWhile_notBrace_via_sep]
        exact List.eq_nil_of_length_eq_zero hdwlen
  · -- the whole buffer is separators, hence brace-free
    rw [hsc] at hlt
    have hnil : (b.dropWhile isSep).length = 0 := by omega
    rw [dropWhile_notBrace_via_sep, List.eq_nil_of_length_eq_zero hnil]
    rfl

/-- The transcribed iteration equals the canonical one: extraction is a
function of the buffer's suffix at its first `{`. -/
theorem extractSpan_eq (b : List Char) :
    extractSpan b = spanCore (b.dropWhile notBrace) := by
  unfold extractSpan
  cases h : startIndexOf b with
  | none => rw [startIndexOf_none h]; rfl
  | some k =>
    simp only []
    rw [drop_startIndexOf h]
    rfl

/-- A successful scan ends strictly inside the scanned list. -/
theorem findClose_lt :
    ∀ (l : List Char) (st : ScanState) (e : Nat),
      findClose st l = some e → e < l.length := by
  intro l
  induction l with
  | nil => intro st e h; exact absurd h (by simp [findClose])
  | cons c rest ih =>
    intro st e h
    simp only [findClose] at h
    simp only [List.length_cons]
    split_ifs at h with h1 h2 h3 h4 h5 h6
    all_goals
      first
        | (simp only [Option.some.injEq] at h; omega)
        | (rcases Option.map_eq_some'.mp h with ⟨e1, he1, rfl⟩
           have := ih _ _ he1
           omega)

/-- Extending the input does not change a scan that already succeeded. -/
theorem findClose_append {t : List Char} :
    ∀ (l : List Char) (st : ScanState) (e : Nat),
      findClose st l = some e → findClose st (l ++ t) = some e := by
  intro l
  induction l with
  | nil => intro st e h; exact absurd h (by simp [findClose])
  | cons c rest ih =>
    intro st e h
    rw [List.cons_append]
    simp only [findClose] at h ⊢
    split_ifs at h ⊢ with h1 h2 h3 h4 h5 h6
    all_goals
      first
        | exact h
        | (rcases Option.map_eq_some'.mp h with ⟨e1, he1, rfl⟩
           rw [ih _ _ he1]
           rfl)

/-- A span already extracted is unaffected by further input. -/
theorem spanCore_some_append {tail t span rest : List Char}
    (h : spanCore tail = some (span, rest)) :
    spanCore (tail ++ t) = some (span, rest ++ t) := by
  unfold spanCore at h ⊢
  cases hf : findClose initScan tail with
  | none => rw [hf] at h; exact absurd h (by simp)
  | some e =>
    rw [hf] at h
    simp only [Option.some.injEq, Prod.mk.injEq] at h
    have hlt := findClose_lt tail initScan e hf
    rw [findClose_append tail initScan e hf]
    simp only [Option.some.injEq, Prod.mk.injEq]
    constructor
    · rw [List.take_append_of_le_length (by omega), h.1]
    · rw [List.drop_append_of_le_length (by omega), h.2]

theorem spanCore_nil : spanCore [] = none := rfl

theorem extractSpan_some_append {b t span rest : List Char}
    (h : extractSpan b = some (span, rest)) :
    extractSpan (b ++ t) = some (span, rest ++ t) := by
  rw [extractSpan_eq] at h ⊢
  have hne : b.dropWhile notBrace ≠ [] := by
    intro hnil
    rw [hnil, spanCore_nil] at h
    exact Option.noConfusion h
  rw [List.dropWhile_append]
  simp only [List.isEmpty_iff, hne, if_false]
  exact spanCore_some_append h

theorem extractSpan_sepRun {s : List Char} (hs : ∀ c ∈ s, isSep c = true)
    (z : List Char) : extractSpan (s ++ z) = extractSpan z := by
  rw [extractSpan_eq, extractSpan_eq, dropWhile_notBrace_sep_append hs]

/-- Lifting `extractSpan_some_append` to the fragment level. -/
theorem extractOne_some_append {b t : List Char} {fs : List Json} {rest : List Char}
    (h : extractOne b = some (fs, rest)) :
    extractOne (b ++ t) = some (fs, rest ++ t) := by
  unfold extractOne at h ⊢
  rcases Option.map_eq_some'.mp h with ⟨⟨span, r⟩, hspan, heq⟩
  simp only [Prod.mk.injEq] at heq
  rw [extractSpan_some_append hspan]
  simp only [Option.map_some', Option.some.injEq, Prod.mk.injEq]
  exact ⟨heq.1, by rw [← heq.2]⟩

theorem extractOne_sepRun {s : List Char} (hs : ∀ c ∈ s, isSep c = true)
    (z : List Char) : extractOne (s ++ z) = extractOne z := by
  unfold extractOne
  rw [extractSpan_sepRun hs]

/-- The per-chunk leading-separator strip does not affect extraction. -/
theorem extractOne_dropSeps (x : List Char) :
    extractOne (dropSeps x) = extractOne x := by
  conv_rhs => rw [← List.takeWhile_append_dropWhile isSep x]
  exact (extractOne_sepRun (fun c hc => List.mem_takeWhile_imp hc) _).symm

theorem extractOne_nil : extractOne [] = none := rfl

/-- Each loop iteration strictly shrinks the buffer. -/
theorem extractOne_length {b : List Char} {fs : List Json} {rest : List Char}
    (h : extractOne b = some (fs, rest)) : rest.length < b.length := by
  unfold extractOne at h
  rcases Option.map_eq_some'.mp h with ⟨⟨span, r⟩, hspan, heq⟩
  simp only [Prod.mk.injEq] at heq
  rw [extractSpan_eq] at hspan
  unfold spanCore at hspan
  cases hf : findClose initScan (b.dropWhile notBrace) with
  | none => rw [hf] at hspan; exact absurd hspan (by simp)
  | some e =>
    rw [hf] at hspan
    simp only [Option.some.injEq, Prod.mk.injEq] at hspan
    have hlt := findClose_lt _ initScan e hf
    have hdw := takeWhile_add_dropWhile_length notBrace b
    have hrest : rest = (b.dropWhile notBrace).drop (e + 1) := by rw [← heq.2, ← hspan.2]
    rw [hrest, List.length_drop]
    omega

/-! ## The loop run to quiescence: fuel elimination and streaming -/

theorem processAux_congr :
    ∀ (f1 f2 : Nat) (b : List Char), b.length ≤ f1 → b.length ≤ f2 →
      processAux f1 b = processAux f2 b := by
  intro f1
  induction f1 with
  | zero =>
    intro f2 b h1 _
    have hb : b = [] := List.eq_nil_of_length_eq_zero (by omega)
    subst hb
    cases f2 with
    | zero => rfl
    | succ f2 => simp [processAux, extractOne_nil]
  | succ f ih =>
    intro f2 b h1 h2
    cases f2 with
    | zero =>
      have hb : b = [] := List.eq_nil_of_length_eq_zero (by omega)
      subst hb
      simp [processAux, extractOne_nil]
    | succ f2 =>
      simp only [processAux]
      cases he : extractOne b with
      | none => rfl
      | some p =>
        obtain ⟨fs, rest⟩ := p
        have hlen := extractOne_length he
        simp only [ih f2 rest (by omega) (by omega)]

theorem processBuffer_none {b : List Char} (h : extractOne b = none) :
    processBuffer b = ([], b) := by
  unfold processBuffer
  cases hl : b.length with
  | zero => rfl
  | succ n => simp [processAux, h]

theorem processBuffer_some {b : List Char} {fs : List Json} {rest : List Char}
    (h : extractOne b = some (fs, rest)) :
    processBuffer b
      = (fs ++ (processBuffer rest).1, (processBuffer rest).2) := by
  have hlen := extractOne_length h
  unfold processBuffer
  cases hl : b.length with
  | zero => omega
  | succ n =>
    simp only [processAux, h]
    rw [processAux_congr n rest.length rest (by omega) (by omega)]

/-- The loop stops only when the remaining buffer cannot progress. -/
theorem processBuffer_residual :
    ∀ (n : Nat) (b : List Char), b.length ≤ n →
      extractOne (processBuffer b).2 = none := by
  intro n
  induction n with
  | zero =>
    intro b h
    have hb : b = [] := List.eq_nil_of_length_eq_zero (by omega)
    subst hb
    rw [processBuffer_none extractOne_nil]
    exact extractOne_nil
  | succ n ih =>
    intro b h
    cases he : extractOne b with
    | none => rw [processBuffer_none he]; exact he
    | some p =>
      obtain ⟨fs, rest⟩ := p
      have hlen := extractOne_length he
      rw [processBuffer_some he]
      exact ih rest (by omega)

/-- Streaming decomposition: running the loop on `b ++ t` is running it on
`b`, then running it on the leftover of `b` extended by `t`. -/
theorem processBuffer_append :
    ∀ (n : Nat) (b : List Char), b.length ≤ n → ∀ (t : List Char),
      processBuffer (b ++ t)
        = ((processBuffer b).1 ++ (processBuffer ((processBuffer b).2 ++ t)).1,
           (processBuffer ((processBuffer b).2 ++ t)).2) := by
  intro n
  induction n with
  | zero =>
    intro b h t
    have hb : b = [] := List.eq_nil_of_length_eq_zero (by omega)
    subst hb
    rw [processBuffer_none extractOne_nil]
    simp
  | succ n ih =>
    intro b h t
    cases he : extractOne b with
    | none =>
      rw [processBuffer_none he]
      simp
    | some p =>
      obtain ⟨fs, rest⟩ := p
      have hlen := extractOne_length he
      rw [processBuffer_some (extractOne_some_append he), processBuffer_some he,
        ih rest (by omega) t]
      simp [List.append_assoc]

/-- A leading run of separators contributes no fragments. -/
theorem processBuffer_fst_sepRun {s : List Char} (hs : ∀ c ∈ s, isSep c = true)
    (z : List Char) :
    (processBuffer (s ++ z)).1 = (processBuffer z).1 := by
  cases hz : extractOne z with
  | none =>
    rw [processBuffer_none hz, processBuffer_none (by rw [extractOne_sepRun hs, hz])]
  | some p =>
    obtain ⟨fs, rest⟩ := p
    rw [processBuffer_some hz, processBuffer_some (by rw [extractOne_sepRun hs, hz])]

/-- The separator strip changes no fragments. -/
theorem processBuffer_fst_dropSeps (x : List Char) :
    (processBuffer (dropSeps x)).1 = (processBuffer x).1 := by
  conv_rhs => rw [← List.takeWhile_append_dropWhile isSep x]
  exact (processBuffer_fst_sepRun (fun c hc => List.mem_takeWhile_imp hc) _).symm

/-- The separator strip also commutes with the leftover buffer, as far as
later fragments are concerned. -/
theorem processBuffer_snd_dropSeps (x t : List Char) :
    (processBuffer ((processBuffer (dropSeps x)).2 ++ t)).1
      = (processBuffer ((processBuffer x).2 ++ t)).1 := by
  cases hx : extractOne x with
  | none =>
    have h1 : extractOne (dropSeps x) = none := by rw [extractOne_dropSeps]; exact hx
    rw [processBuffer_none hx, processBuffer_none h1]
    simp only []
    have hdecomp : x ++ t = x.takeWhile isSep ++ (dropSeps x ++ t) := by
      rw [← List.append_assoc]
      unfold dropSeps
      rw [List.takeWhile_append_dropWhile]
    rw [hdecomp]
    exact (processBuffer_fst_sepRun (fun c hc => List.mem_takeWhile_imp hc) _).symm
  | some p =>
    obtain ⟨fs, rest⟩ := p
    have h1 : extractOne (dropSeps x) = some (fs, rest) := by
      rw [extractOne_dropSeps]; exact hx
    rw [processBuffer_some hx, processBuffer_some h1]

/-- Invariant of the chunk-feeding fold: from a quiescent buffer, the
fragments produced by any chunk sequence are those of the single
concatenated delivery. -/
theorem feedChunks_spec :
    ∀ (cs : List (List Char)) (fs : List Json) (r : List Char),
      extractOne r = none →
      (List.foldl feedChunk (fs, r) cs).1
        = fs ++ (processBuffer (dropSeps (r ++ cs.flatten))).1 := by
  intro cs
  induction cs with
  | nil =>
    intro fs r hr
    simp only [List.foldl_nil, List.flatten_nil, List.append_nil]
    rw [processBuffer_fst_dropSeps, processBuffer_none hr]
    simp
  | cons c cs' ih =>
    intro fs r hr
    rw [List.foldl_cons]
    have hfc : feedChunk (fs, r) c
        = (fs ++ (processBuffer (dropSeps (r ++ c))).1,
           (processBuffer (dropSeps (r ++ c))).2) := rfl
    rw [hfc, ih (fs ++ (processBuffer (dropSeps (r ++ c))).1)
      ((processBuffer (dropSeps (r ++ c))).2)
      (processBuffer_residual (dropSeps (r ++ c)).length (dropSeps (r ++ c)) le_rfl)]
    rw [List.flatten_cons,
      processBuffer_fst_dropSeps ((processBuffer (dropSeps (r ++ c))).2 ++ cs'.flatten),
      processBuffer_snd_dropSeps (r ++ c) cs'.flatten,
      processBuffer_fst_dropSeps (r ++ c), ← List.append_assoc r c cs'.flatten,
      processBuffer_fst_dropSeps (r ++ c ++ cs'.flatten),
      processBuffer_append (r ++ c).length (r ++ c) le_rfl cs'.flatten]
    simp [List.append_assoc]

/-! ## Claim C1: chunking invariance -/

/-- C1: Chunking invariance of the Reassembler — for every byte sequence
and every way of splitting it into successive chunks (including splits
mid-brace, mid-string and mid-escape-sequence), feeding the chunks one by
one to the streaming reassembly loop yields exactly the same ordered
sequence of text fragments as feeding the entire sequence as a single
chunk. -/
theorem C1_chunking_invariance (chunks : List (List Char)) :
    (feedAll chunks).1 = (feedAll [chunks.flatten]).1 := by
  unfold feedAll
  rw [feedChunks_spec chunks [] [] extractOne_nil,
    feedChunks_spec [chunks.flatten] [] [] extractOne_nil]
  simp

/-! ## Claims C4 and C5: what one parsed object yields -/

/-- The canonical provider response shape, built over a list of part
texts: one candidate whose content has one part per text. -/
def respParts : List String → JsonList
  | [] => .nil
  | t :: ts => .cons (Json.obj (.cons "text" (Json.str t) .nil)) (respParts ts)

/-- A response object `airesp` with the given part texts. -/
def respObj (texts : List String) : Json :=
  Json.obj (.cons "candidates"
    (Json.arr (.cons
      (Json.obj (.cons "content"
        (Json.obj (.cons "parts" (Json.arr (respParts texts)) .nil)) .nil))
      .nil)) .nil)

/-- A stream consisting of one object whose first candidate has the two
non-empty parts `"A"` and `"B"`. -/
def twoPartInput : String :=
  "\x7b\"candidates\":[\x7b\"content\":\x7b\"parts\":[\x7b\"text\":\"A\"\x7d,\x7b\"text\":\"B\"\x7d]\x7d\x7d]\x7d"

/-- C4 counterexample: the claim predicts one fragment per non-empty text
part of the first candidate, but on an object with two non-empty parts the
code yields only the first part's text. -/
theorem C4_counterexample :
    (feedAll [twoPartInput.data]).1 = [Json.str "A"]
    ∧ (parseJsonChars twoPartInput.data).map specYieldOf
        = some [Json.str "A", Json.str "B"]
    ∧ (feedAll [twoPartInput.data]).1
        ≠ [Json.str "A", Json.str "B"] := by
  have h1 : (feedAll [twoPartInput.data]).1 = [Json.str "A"] := by rfl
  refine ⟨h1, by rfl, ?_⟩
  rw [h1]
  intro h
  have hlen := congrArg List.length h
  simp at hlen

/-- C4 amended: for every successfully parsed object the code yields at
most one fragment, and on the canonical response shape it yields exactly
the first part's text when that text is non-empty, and nothing
otherwise — later parts are never yielded. -/
theorem C4_amended :
    (∀ j : Json, (yieldOf j).length ≤ 1)
    ∧ yieldOf (respObj []) = []
    ∧ ∀ (t : String) (ts : List String),
        yieldOf (respObj (t :: ts)) = if t = "" then [] else [Json.str t] := by
  refine ⟨?_, by rfl, ?_⟩
  · intro j
    simp only [yieldOf]
    split_ifs <;> try simp
    split <;> simp
  · intro t ts
    by_cases ht : t = ""
    · subst ht
      rfl
    · have hne : t.isEmpty = false := by
        cases hemp : t.isEmpty
        · rfl
        · exact absurd ((String.isEmpty_iff t).mp hemp) ht
      simp [yieldOf, respObj, respParts, getProp, JsonFields.toList, lookupLast,
        index0, truthyO, truthy, hne, ht]

/-- The spec's C5 test input: an object with braces inside a string value
but without the `candidates` wrapper the extraction chain requires. -/
def c5Input : String :=
  "\x7b\"content\":\x7b\"parts\":[\x7b\"text\":\"a\x7bb\x7dc\"\x7d]\x7d\x7d"

/-- The same object wrapped in the provider's `candidates` shape. -/
def c5WrappedInput : String :=
  "\x7b\"candidates\":[\x7b\"content\":\x7b\"parts\":[\x7b\"text\":\"a\x7bb\x7dc\"\x7d]\x7d\x7d]\x7d"

/-- C5 counterexample: on the exact input the claim names, the reassembler
yields no fragment at all (the object lacks the `candidates` field the
extraction requires), not the fragment once. -/
theorem C5_counterexample :
    (feedAll [c5Input.data]).1 = []
    ∧ (feedAll [c5Input.data]).1 ≠ [Json.str "a\x7bb\x7dc"] := by
  have h1 : (feedAll [c5Input.data]).1 = [] := by rfl
  refine ⟨h1, ?_⟩
  rw [h1]
  intro h
  have hlen := congrArg List.length h
  simp at hlen

/-- C5 amended: braces inside string literals do not terminate brace
matching — on the claim's object wrapped in the provider's `candidates`
shape, the complete stream yields the fragment `a{b}c` exactly once. -/
theorem C5_amended :
    (feedAll [c5WrappedInput.data]).1 = [Json.str "a\x7bb\x7dc"] := by rfl

/-! ## Claim C7: local recovery of malformed spans -/

/-- C7: a brace-balanced span that fails JSON parsing yields zero
fragments, is removed from the buffer and raises nothing (the loop simply
continues on the remainder, so later objects are still processed); and a
buffer in which no complete object can be found — in particular a final
unterminated object at stream end — yields nothing and is left to be
dropped. -/
theorem C7_malformed_span_recovery :
    (∀ (b span rest : List Char), extractSpan b = some (span, rest) →
        parseJsonChars span = none →
        (processBuffer b).1 = (processBuffer rest).1)
    ∧ (∀ b : List Char, extractSpan b = none → processBuffer b = ([], b)) := by
  constructor
  · intro b span rest hspan hparse
    have hone : extractOne b = some (fragsOfSpan span, rest) := by
      unfold extractOne
      rw [hspan]
      rfl
    have hfrags : fragsOfSpan span = [] := by
      unfold fragsOfSpan
      rw [hparse]
    rw [processBuffer_some hone, hfrags]
    simp
  · intro b hnone
    apply processBuffer_none
    unfold extractOne
    rw [hnone]
    rfl

/-- C7 witness: the malformed balanced span `{bad}` followed by a good
object is dropped with processing continuing on the good object, and a
final unterminated buffer is left untouched. -/
theorem C7_witness :
    (processBuffer ("\x7bbad\x7d\x7b\"candidates\":[\x7b\"content\":\x7b\"parts\":[\x7b\"text\":\"ok\"\x7d]\x7d\x7d]\x7d".data)).1
      = (processBuffer ("\x7b\"candidates\":[\x7b\"content\":\x7b\"parts\":[\x7b\"text\":\"ok\"\x7d]\x7d\x7d]\x7d".data)).1
    ∧ processBuffer ("\x7b\"truncated".data) = ([], "\x7b\"truncated".data) :=
  ⟨C7_malformed_span_recovery.1 _ _ _ (by rfl) (by rfl),
   C7_malformed_span_recovery.2 _ (by rfl)⟩

/-! ## SSE wire framing

`SSEStream` lives at lines 560-815 of the bundled source (`sse-utils`).
Its message type enum, `sendMessage` frame construction and the state
flags are embedded below.  Structured payloads are serialized with a model
of `JSON.stringify`. -/

/-- The SSE message type enum (lines 548-559). -/
inductive SSEMessageType where
  | start
  | data
  | done
  | error
  | ping
deriving DecidableEq

/-- The wire name of a message type (the enum's string value). -/
def SSEMessageType.wire : SSEMessageType → String
  | .start => "start"
  | .data => "data"
  | .done => "done"
  | .error => "error"
  | .ping => "ping"

/-- Lower-case hex digit of a value below 16. -/
def hexDigit (n : Nat) : Char :=
  if n < 10 then Char.ofNat ('0'.toNat + n) else Char.ofNat ('a'.toNat + n - 10)

/-- One character of a `JSON.stringify` string body, with the RFC escape
set and `\u00xx` for other control characters. -/
def stringifyStringChar (c : Char) : String :=
  if c = '"' then "\\\""
  else if c = '\\' then "\\\\"
  else if c = '\x08' then "\\b"
  else if c = '\x0c' then "\\f"
  else if c = '\n' then "\\n"
  else if c = '\r' then "\\r"
  else if c = '\t' then "\\t"
  else if c.toNat < 0x20 then
    "\\u00" ++ String.mk [hexDigit (c.toNat / 16), hexDigit (c.toNat % 16)]
  else String.mk [c]

/-- A `JSON.stringify` string literal. -/
def quoteString (s : String) : String :=
  "\"" ++ String.join (s.data.map stringifyStringChar) ++ "\""

mutual

/-- Model of `JSON.stringify` (compact form, as called with one
argument). -/
def stringifyJson : Json → String
  | .null => "null"
  | .bool true => "true"
  | .bool false => "false"
  | .num raw => raw
  | .str s => quoteString s
  | .arr xs => "[" ++ stringifyArr xs ++ "]"
  | .obj fs => "\x7b" ++ stringifyObj fs ++ "\x7d"

/-- Elements of a serialized array, comma separated. -/
def stringifyArr : JsonList → String
  | .nil => ""
  | .cons x .nil => stringifyJson x
  | .cons x xs => stringifyJson x ++ "," ++ stringifyArr xs

/-- Members of a serialized object, comma separated. -/
def stringifyObj : JsonFields → String
  | .nil => ""
  | .cons k v .nil => quoteString k ++ ":" ++ stringifyJson v
  | .cons k v fs => quoteString k ++ ":" ++ stringifyJson v ++ "," ++ stringifyObj fs

end

/-- Payload of an SSE message (`data?: any`, line 569): a raw string or a
structured value; `none` models `undefined`. -/
inductive SSEData where
  | str (s : String)
  | json (j : Json)

/-- An `SSEMessage` (lines 565-574). -/
structure SSEMessage where
  type : SSEMessageType
  data : Option SSEData := none
  id : Option String := none
  retry : Option Nat := none

/-- Line 641-643: a string payload is used as is, any other payload is
`JSON.stringify`-serialized. -/
def dataString : SSEData → String
  | .str s => s
  | .json j => stringifyJson j

/-- Split on newline characters, with the semantics of JS
`split('\n')`: the empty string gives one empty line, a trailing newline
gives a trailing empty line. -/
def splitNlChars : List Char → List (List Char)
  | [] => [[]]
  | c :: rest =>
    let r := splitNlChars rest
    if c = '\n' then [] :: r
    else
      match r with
      | [] => [[c]]
      | l :: ls => (c :: l) :: ls

/-- The payload's lines (`dataString.split('\n')`, line 646). -/
def splitLines (s : String) : List String :=
  (splitNlChars s.data).map String.mk

/-- Truthiness of the optional id (`if (message.id)`, line 632): absent or
empty means no `id:` line. -/
def idTruthy : Option String → Bool
  | none => false
  | some s => !s.isEmpty

/-- Truthiness of the optional retry (`if (message.retry)`, line 653):
absent or zero means no `retry:` line. -/
def retryTruthy : Option Nat → Bool
  | none => false
  | some n => n != 0

/-- The frame `sendMessage` builds (lines 627-658), transcribed as the
source's sequential accumulation onto `sseData` (the initial empty string
is dropped, `"" ++ s` being `s`). -/
def buildFrame (m : SSEMessage) : String :=
  let s1 := if idTruthy m.id then "id: " ++ m.id.getD "" ++ "\n" else ""
  let s2 := s1 ++ "event: " ++ m.type.wire ++ "\n"
  let s3 :=
    match m.data with
    | none => s2
    | some d =>
      (splitLines (dataString d)).foldl (fun acc line => acc ++ "data: " ++ line ++ "\n") s2
  let s4 := if retryTruthy m.retry then s3 ++ "retry: " ++ toString (m.retry.getD 0) ++ "\n" else s3
  s4 ++ "\n"

/-- One `data:` line per payload line, in order. -/
def frameDataLines : List String → String
  | [] => ""
  | l :: ls => "data: " ++ l ++ "\n" ++ frameDataLines ls

/-- Modelled from the spec: the wire framing of section 4.2 with an `id:`
line exactly when an id is provided and a `retry:` line exactly when a
retry interval is provided. -/
def specFrame (m : SSEMessage) : String :=
  (match m.id with
   | some i => "id: " ++ i ++ "\n"
   | none => "")
  ++ "event: " ++ m.type.wire ++ "\n"
  ++ (match m.data with
      | none => ""
      | some d => frameDataLines (splitLines (dataString d)))
  ++ (match m.retry with
      | some n => "retry: " ++ toString n ++ "\n"
      | none => "")
  ++ "\n"

/-- The frame description with the truthiness conditions the source
actually applies to `id` and `retry`. -/
def amendedFrame (m : SSEMessage) : String :=
  (if idTruthy m.id then "id: " ++ m.id.getD "" ++ "\n" else "")
  ++ "event: " ++ m.type.wire ++ "\n"
  ++ (match m.data with
      | none => ""
      | some d => frameDataLines (splitLines (dataString d)))
  ++ (if retryTruthy m.retry then "retry: " ++ toString (m.retry.getD 0) ++ "\n" else "")
  ++ "\n"

theorem foldl_dataLines (lines : List String) :
    ∀ acc : String,
      lines.foldl (fun acc line => acc ++ "data: " ++ line ++ "\n") acc
        = acc ++ frameDataLines lines := by
  induction lines with
  | nil => intro acc; simp [frameDataLines]
  | cons l ls ih =>
    intro acc
    rw [List.foldl_cons, ih, frameDataLines]
    simp [String.append_assoc]

/-- The source's sequential frame accumulation equals the block
description with truthiness tests on `id` and `retry`. -/
theorem buildFrame_blocks (m : SSEMessage) : buildFrame m = amendedFrame m := by
  obtain ⟨ty, dt, mid, mretry⟩ := m
  cases dt with
  | none =>
    simp only [buildFrame, amendedFrame]
    apply String.ext
    by_cases hr : retryTruthy mretry = true <;> by_cases hid : idTruthy mid = true <;>
      simp [hr, hid, String.data_append]
  | some d =>
    simp only [buildFrame, amendedFrame]
    rw [foldl_dataLines]
    apply String.ext
    by_cases hr : retryTruthy mretry = true <;> by_cases hid : idTruthy mid = true <;>
      simp [hr, hid, String.data_append]

/-! ## Claim C2: the wire frame -/

/-- C2 counterexample: a message that provides the id `""` gets no `id:`
line from the code (`if (message.id)` is a truthiness test), while the
claimed frame contains one. -/
theorem C2_counterexample :
    buildFrame { type := .data, data := some (.str "x"), id := some "" }
      = "event: data\ndata: x\n\n"
    ∧ specFrame { type := .data, data := some (.str "x"), id := some "" }
      = "id: \nevent: data\ndata: x\n\n"
    ∧ buildFrame { type := .data, data := some (.str "x"), id := some "" }
      ≠ specFrame { type := .data, data := some (.str "x"), id := some "" } := by
  refine ⟨by rfl, by rfl, by decide⟩

/-- C2 amended: `sendMessage` writes exactly the frame consisting of an
`id: <id>` line only if a non-empty id is provided, then `event: <kind>`,
then one `data: <line>` line per line of the payload (non-string payloads
JSON-serialized before splitting, order preserved), then `retry: <ms>`
only if a non-zero retry is provided, terminated by one blank line, in
that order and with no other bytes. -/
theorem C2_amended_frame (m : SSEMessage) : buildFrame m = amendedFrame m :=
  buildFrame_blocks m

/-! ## The SSE stream state machine

Lines 580-815: the stream's mutable state is the nullable controller and
the `isClosed` flag.  Operations return the successor state and the list
of frames actually written to the transport.  The `writeOk` argument says
whether the controller accepts the enqueue; `writeOk = false` exercises
the `catch` branches (controller throwing), which mark the stream closed
and drop the controller. -/

/-- The mutable state of an `SSEStream` (lines 582-583): whether a
controller is attached, and the closed flag. -/
structure SSEState where
  ctrl : Bool
  isClosed : Bool
deriving DecidableEq

/-- A freshly constructed stream: no controller yet, not closed. -/
def initSSE : SSEState := ⟨false, false⟩

/-- `sendMessage` (lines 617-685): drop the message when closed or
controller-less; otherwise write the frame, closing defensively if the
enqueue throws. -/
def sendMessage (writeOk : Bool) (st : SSEState) (m : SSEMessage) : SSEState × List String :=
  if st.isClosed || !st.ctrl then (st, [])
  else if writeOk then (st, [buildFrame m])
  else (⟨false, true⟩, [])

/-- `sendData` (lines 694-700): a DATA message whose payload is the
object `{content, timestamp}`. -/
def sendData (writeOk : Bool) (st : SSEState) (text nowIso : String)
    (mid : Option String) : SSEState × List String :=
  sendMessage writeOk st
    { type := .data,
      data := some (.json (.obj (.cons "content" (.str text)
        (.cons "timestamp" (.str nowIso) .nil)))),
      id := mid }

/-- `sendError` (lines 707-744): same guard, then a directly built frame
whose `id:` line follows the `data:` line. -/
def sendError (writeOk : Bool) (st : SSEState) (emsg nowIso : String)
    (nowMs : Nat) : SSEState × List String :=
  if st.isClosed || !st.ctrl then (st, [])
  else if writeOk then
    (st, ["event: error\n" ++ "data: "
      ++ stringifyJson (.obj (.cons "error" (.str emsg)
          (.cons "timestamp" (.str nowIso) .nil)))
      ++ "\n" ++ "id: " ++ toString nowMs ++ "\n\n"])
  else (⟨false, true⟩, [])

/-- `close` (lines 779-805): idempotent; marks closed and drops the
controller, writing nothing. -/
def closeStream (st : SSEState) : SSEState × List String :=
  if st.isClosed then (st, [])
  else (⟨false, true⟩, [])

/-- Truthiness of a payload value (`finalData || {...}`, line 754). -/
def sseDataTruthy : SSEData → Bool
  | .str s => !s.isEmpty
  | .json j => truthy j

/-- The default DONE payload (line 754). -/
def defaultDoneData : SSEData :=
  .json (.obj (.cons "message" (.str "响应生成完成") .nil))

/-- `sendDone` (lines 751-762): a DONE message (with the default payload
When `finalData` is falsy) followed by the delayed `close`. -/
def sendDone (writeOk : Bool) (st : SSEState) (finalData : Option SSEData)
    (nowMs : Nat) : SSEState × List String :=
  let r1 := sendMessage writeOk st
    { type := .done,
      data := some (match finalData with
        | some d => if sseDataTruthy d then d else defaultDoneData
        | none => defaultDoneData),
      id := some (toString nowMs) }
  let r2 := closeStream r1.1
  (r2.1, r1.2 ++ r2.2)

/-- `sendPing` (lines 768-774). -/
def sendPing (writeOk : Bool) (st : SSEState) (nowIso : String)
    (nowMs : Nat) : SSEState × List String :=
  sendMessage writeOk st
    { type := .ping,
      data := some (.json (.obj (.cons "timestamp" (.str nowIso) .nil))),
      id := some (toString nowMs) }

/-- The `start` callback of `createStream` (lines 600-603): attaches the
controller, writing nothing. -/
def attachController (st : SSEState) : SSEState × List String :=
  (⟨true, st.isClosed⟩, [])

/-- The `cancel` callback of `createStream` (lines 605-608): a `close`. -/
def cancelStream (st : SSEState) : SSEState × List String :=
  closeStream st

/-- Every operation of the class, as one step of the state machine. -/
inductive SSEOp where
  | msg (writeOk : Bool) (m : SSEMessage)
  | dataOp (writeOk : Bool) (text nowIso : String) (mid : Option String)
  | errorOp (writeOk : Bool) (emsg nowIso : String) (nowMs : Nat)
  | doneOp (writeOk : Bool) (finalData : Option SSEData) (nowMs : Nat)
  | pingOp (writeOk : Bool) (nowIso : String) (nowMs : Nat)
  | closeOp
  | cancelOp
  | attachOp

/-- Run one operation. -/
def runOp (st : SSEState) : SSEOp → SSEState × List String
  | .msg w m => sendMessage w st m
  | .dataOp w text nowIso mid => sendData w st text nowIso mid
  | .errorOp w emsg nowIso nowMs => sendError w st emsg nowIso nowMs
  | .doneOp w finalData nowMs => sendDone w st finalData nowMs
  | .pingOp w nowIso nowMs => sendPing w st nowIso nowMs
  | .closeOp => closeStream st
  | .cancelOp => cancelStream st
  | .attachOp => attachController st

/-! ## Claim C3: close is terminal and idempotent -/

/-- C3: once the closed flag is true, every operation of the class —
`sendMessage`, `sendData`, `sendError`, `sendDone`, `sendPing`, a second
`close`, the cancel callback, even a late controller attach — writes no
frame, raises nothing (all operations are total functions here), and
leaves the closed flag true; no operation ever resets it to false. -/
theorem C3_close_terminal (st : SSEState) (op : SSEOp) (h : st.isClosed = true) :
    (runOp st op).2 = [] ∧ (runOp st op).1.isClosed = true := by
  obtain ⟨ctrl, closed⟩ := st
  simp only [] at h
  subst h
  cases op <;>
    simp [runOp, sendMessage, sendData, sendError, sendDone, sendPing,
      closeStream, cancelStream, attachController]

/-- C3 witness: a closed stream stays closed and writes nothing on a
further `close` and on a DONE send. -/
theorem C3_witness :
    ((runOp ⟨false, true⟩ .closeOp).2 = []
      ∧ (runOp ⟨false, true⟩ .closeOp).1.isClosed = true)
    ∧ ((runOp ⟨true, true⟩ (.doneOp true none 7)).2 = []
      ∧ (runOp ⟨true, true⟩ (.doneOp true none 7)).1.isClosed = true) :=
  ⟨C3_close_terminal ⟨false, true⟩ .closeOp rfl,
   C3_close_terminal ⟨true, true⟩ (.doneOp true none 7) rfl⟩

/-! ## Claim C10: sends in the Idle state are dropped, not queued -/

/-- The start message `handleStreamingChat` sends before `createStream()`
is invoked (chat-service.ts lines 254-257). -/
def streamStartMsg : SSEMessage :=
  { type := .start, data := some (.str "开始生成回复...") }

/-- C10: on a stream whose controller has not been attached yet, every
`sendMessage` writes nothing, raises nothing and leaves the state exactly
as it was — the state records nothing about the message, so it can never
be delivered later; in particular the initial start event of
`handleStreamingChat`, sent before `createStream()`, is never written,
and the subsequent controller attach writes nothing either. -/
theorem C10_idle_sends_dropped :
    (∀ (w : Bool) (m : SSEMessage), sendMessage w initSSE m = (initSSE, []))
    ∧ sendMessage true initSSE streamStartMsg = (initSSE, [])
    ∧ attachController initSSE = (⟨true, false⟩, []) := by
  refine ⟨?_, by rfl, by rfl⟩
  intro w m
  simp [sendMessage, initSSE]

/-! ## The upstream call of `generateStreamingResponse`

Lines 280-450 of `gemini-client.ts`: the fetch outcome is checked before
the read loop, so a non-success status or a missing body raises before
any fragment is yielded; the outer catch wraps every error message. -/

/-- Outcome of the upstream streaming `fetch`: HTTP success flag, status,
the error body text read on failure, and the body chunks (`none` for a
response without a body). -/
structure UpstreamResponse where
  ok : Bool
  status : Nat
  bodyText : String
  body : Option (List (List Char))

/-- The HTTP error message thrown at line 323. -/
def geminiStreamHttpErrorMsg (status : Nat) (bodyText : String) : String :=
  "Gemini API 错误 (" ++ toString status ++ "): " ++ bodyText

/-- The wrapper the outer catch applies at line 448. -/
def streamUnavailableMsg (inner : String) : String :=
  "AI 流式服务暂时不可用: " ++ inner

/-- Observable behaviour of `generateStreamingResponse`: the fragments
yielded, and the terminal error if the call failed.  The status check
(line 316) and the body check (line 326) precede the read loop, and the
read loop is the chunk feed of `feedAll`. -/
def generateStreamingResponse (r : UpstreamResponse) : List Json × Option String :=
  if !r.ok then
    ([], some (streamUnavailableMsg (geminiStreamHttpErrorMsg r.status r.bodyText)))
  else
    match r.body with
    | none => ([], some (streamUnavailableMsg "响应体为空"))
    | some chunks => ((feedAll chunks).1, none)

/-- Whether `needle` starts `hay`. -/
def listIsPfx : List Char → List Char → Bool
  | [], _ => true
  | _ :: _, [] => false
  | a :: as, b :: bs => a = b && listIsPfx as bs

/-- Whether `needle` occurs as a contiguous substring of `hay`. -/
def containsSub (needle : List Char) : List Char → Bool
  | [] => listIsPfx needle []
  | c :: rest => listIsPfx needle (c :: rest) || containsSub needle rest

theorem listIsPfx_append_self (a b : List Char) : listIsPfx a (a ++ b) = true := by
  induction a with
  | nil => rfl
  | cons c cs ih => simp [listIsPfx, ih]

theorem containsSub_of_isPfx {n h : List Char} (hp : listIsPfx n h = true) :
    containsSub n h = true := by
  cases h with
  | nil => exact hp
  | cons c rest => simp [containsSub, hp]

theorem containsSub_of_middle (n : List Char) :
    ∀ (p s : List Char), containsSub n (p ++ n ++ s) = true := by
  intro p
  induction p with
  | nil =>
    intro s
    apply containsSub_of_isPfx
    simp only [List.nil_append]
    exact listIsPfx_append_self n s
  | cons c cs ih =>
    intro s
    have h := ih s
    rw [List.append_assoc] at h
    simp only [List.cons_append, List.append_assoc]
    simp [containsSub, h]

/-! ## Claim C6: fail fast before the first fragment -/

/-- C6 counterexample: when the call succeeds (status 200) but has no
body, the raised error is the fixed message `响应体为空` wrapped by the
outer catch — it carries neither the status nor any response-body
excerpt, though the claim asserts the error always carries both. -/
theorem C6_counterexample :
    generateStreamingResponse ⟨true, 200, "", none⟩
      = ([], some "AI 流式服务暂时不可用: 响应体为空")
    ∧ containsSub "200".data ("AI 流式服务暂时不可用: 响应体为空".data) = false := by
  exact ⟨by rfl, by rfl⟩

/-- C6 amended: on a non-success status the call raises, before any
fragment is yielded, an error whose message contains the decimal status
and the response body; on a success with no body it raises, before any
fragment, the fixed empty-body error message. -/
theorem C6_amended :
    (∀ r : UpstreamResponse, r.ok = false →
      (generateStreamingResponse r).1 = []
      ∧ ∃ msg, (generateStreamingResponse r).2 = some msg
          ∧ containsSub (toString r.status).data msg.data = true
          ∧ containsSub r.bodyText.data msg.data = true)
    ∧ (∀ r : UpstreamResponse, r.ok = true → r.body = none →
      generateStreamingResponse r = ([], some (streamUnavailableMsg "响应体为空"))) := by
  constructor
  · intro r hok
    obtain ⟨ok, status, bodyText, body⟩ := r
    simp only [] at hok
    subst hok
    refine ⟨rfl, streamUnavailableMsg (geminiStreamHttpErrorMsg status bodyText),
      rfl, ?_, ?_⟩
    · rw [show (streamUnavailableMsg (geminiStreamHttpErrorMsg status bodyText)).data
          = ("AI 流式服务暂时不可用: ".data ++ "Gemini API 错误 (".data)
            ++ (toString status).data ++ ("): ".data ++ bodyText.data) from by
        simp [streamUnavailableMsg, geminiStreamHttpErrorMsg, String.data_append,
          List.append_assoc]]
      exact containsSub_of_middle _ _ _
    · rw [show (streamUnavailableMsg (geminiStreamHttpErrorMsg status bodyText)).data
          = ("AI 流式服务暂时不可用: ".data ++ ("Gemini API 错误 (".data
              ++ ((toString status).data ++ "): ".data)))
            ++ bodyText.data ++ [] from by
        simp [streamUnavailableMsg, geminiStreamHttpErrorMsg, String.data_append,
          List.append_assoc]]
      exact containsSub_of_middle _ _ _
  · intro r hok hbody
    obtain ⟨ok, status, bodyText, body⟩ := r
    simp only [] at hok hbody
    subst hok
    subst hbody
    rfl

/-- C6 witness: a 500 response with body `boom` raises an error carrying
`500` and `boom` with no fragment, and a body-less 200 response raises
the empty-body error with no fragment. -/
theorem C6_witness :
    ((generateStreamingResponse ⟨false, 500, "boom", none⟩).1 = []
      ∧ ∃ msg, (generateStreamingResponse ⟨false, 500, "boom", none⟩).2 = some msg
          ∧ containsSub (toString (500 : Nat)).data msg.data = true
          ∧ containsSub ("boom" : String).data msg.data = true)
    ∧ generateStreamingResponse ⟨true, 200, "x", none⟩
        = ([], some (streamUnavailableMsg "响应体为空")) :=
  ⟨C6_amended.1 ⟨false, 500, "boom", none⟩ rfl,
   C6_amended.2 ⟨true, 200, "x", none⟩ rfl rfl⟩

/-! ## The chat service

`chat-service.ts` drives the two response paths.  The streaming path
(lines 298-380): one DATA frame per fragment, then a DONE frame, or an
ERROR frame if the upstream call failed, and a `close` in the `finally`
block.  The non-streaming path (lines 173-231) rethrows upstream errors
to `handleChatRequest`, whose catch produces the 500 JSON error response
(lines 141-162). -/

mutual

/-- JS string conversion of a value, as used when a yielded fragment is
interpolated or joined: strings unchanged, primitives by their literal,
arrays comma-joined, objects as `[object Object]`. -/
def jsToString : Json → String
  | .null => "null"
  | .bool true => "true"
  | .bool false => "false"
  | .num raw => raw
  | .str s => s
  | .arr xs => jsToStringArr xs
  | .obj _ => "[object Object]"

/-- `Array.prototype.toString`: elements comma separated. -/
def jsToStringArr : JsonList → String
  | .nil => ""
  | .cons x .nil => jsToString x
  | .cons x xs => jsToString x ++ "," ++ jsToStringArr xs

end

/-- `processStreamingResponse` (lines 298-380) over the generator's
observable output: the chunk strings it yielded and the terminal error if
it failed.  One DATA message per chunk (line 333), then a DONE message
(line 357) or an ERROR message built from the error (line 367), then the
`finally` close (line 375). -/
def processStreamingResponse (writeOk : Bool) (st : SSEState)
    (chunks : List String) (err : Option String) : SSEState × List String :=
  let afterData := chunks.foldl
    (fun acc chunk =>
      let r := sendMessage writeOk acc.1 { type := .data, data := some (.str chunk) }
      (r.1, acc.2 ++ r.2))
    (st, [])
  let afterTerm :=
    match err with
    | none =>
      let r := sendMessage writeOk afterData.1
        { type := .done, data := some (.str "回复生成完成") }
      (r.1, afterData.2 ++ r.2)
    | some e =>
      let r := sendMessage writeOk afterData.1
        { type := .error, data := some (.str ("生成回复失败: " ++ e)) }
      (r.1, afterData.2 ++ r.2)
  let rc := closeStream afterTerm.1
  (rc.1, afterTerm.2 ++ rc.2)

/-- Whether a value's JS `length` compares strictly equal to `0`
(`response.candidates.length === 0`, line 227). -/
def jsLenIsZero : Json → Bool
  | .arr .nil => true
  | .arr _ => false
  | .str s => s.isEmpty
  | _ => false

/-- The parts of a parsed candidate content, as a list (the source
immediately calls `Array.prototype.filter` on them; a non-array here
would throw a `TypeError`, which the caller's catch would wrap — the
claims never exercise that path). -/
def partsToList : Option Json → List Json
  | some (.arr xs) => xs.toList
  | _ => []

/-- `extractTextFromResponse` (lines 225-258): candidate checks, the
safety block, then the non-empty text parts joined and trimmed. -/
def extractTextFromResponse (resp : Json) : Except String String :=
  let cands := getProp resp "candidates"
  if !truthyO cands || (match cands with | some v => jsLenIsZero v | none => false) then
    .error "AI 没有生成有效的回复"
  else
    let cand := cands.bind index0
    if (match cand.bind (fun j => getProp j "finishReason") with
        | some (.str s) => s == "SAFETY"
        | _ => false) then
      .error "抱歉，您的请求涉及敏感内容，无法生成回复"
    else
      let content := cand.bind (fun j => getProp j "content")
      let parts := content.bind (fun j => getProp j "parts")
      if !truthyO content || !truthyO parts
          || (match parts with | some v => jsLenIsZero v | none => false) then
        .error "AI 没有生成有效的回复内容"
      else
        let texts := (partsToList parts).filterMap (fun p =>
          match getProp p "text" with
          | some tv => if truthy tv then some tv else none
          | none => none)
        if texts.length = 0 then .error "AI 没有生成有效的文本回复"
        else .ok (String.join (texts.map jsToString)).trim

/-- Outcome of the non-streaming upstream `fetch` of `chat()` (lines
103-128). -/
structure ChatUpstream where
  ok : Bool
  status : Nat
  errorText : String
  respBody : Json

/-- The HTTP error message thrown at line 119. -/
def geminiHttpErrorMsg (status : Nat) (bodyText : String) : String :=
  "Gemini API 错误 (" ++ toString status ++ "): " ++ bodyText

/-- The wrapper `chat()`'s catch applies at line 150. -/
def chatUnavailableMsg (inner : String) : String :=
  "AI 服务暂时不可用: " ++ inner

/-- `chat()` (lines 71-155): non-success status throws the HTTP error,
otherwise the text is extracted from the parsed body; every error message
is wrapped by the catch. -/
def chatCall (r : ChatUpstream) : Except String String :=
  if !r.ok then .error (chatUnavailableMsg (geminiHttpErrorMsg r.status r.errorText))
  else
    match extractTextFromResponse r.respBody with
    | .ok text => .ok text
    | .error e => .error (chatUnavailableMsg e)

/-- `validateAuth` (auth-validator.ts lines 16-24): the anonymous user
object — note that it carries no `user_id` property. -/
def validateAuth : Json :=
  Json.obj (.cons "id" (.str "anonymous-user-id")
    (.cons "email" (.str "anonymous@example.com")
      (.cons "role" (.str "user") .nil)))

/-- An HTTP response of the service: status and JSON body. -/
structure HttpRes where
  status : Nat
  body : Json

/-- The response body `handleStandardChat` serializes (lines 205-217):
the `user_id` property is `user.user_id`, and `JSON.stringify` omits a
property whose value is `undefined`. -/
def standardChatBody (ai now cid : String) (user : Json) : Json :=
  Json.obj (.cons "message" (.str ai)
    (.cons "timestamp" (.str now)
      (.cons "conversation_id" (.str cid)
        (match getProp user "user_id" with
         | some v => .cons "user_id" v .nil
         | none => .nil))))

/-- `handleStandardChat` (lines 173-231): a 200 JSON response on success;
upstream errors are rethrown. -/
def handleStandardChat (user : Json) (cid now : String)
    (up : Except String String) : Except String HttpRes :=
  match up with
  | .error e => .error e
  | .ok ai => .ok ⟨200, standardChatBody ai now cid user⟩

/-- The catch of `handleChatRequest` (lines 141-162): any error becomes a
500 JSON body with `error`, `details` and `requestId` fields. -/
def handleChatRequestWrap (rid : String) (res : Except String HttpRes) : HttpRes :=
  match res with
  | .ok r => r
  | .error e =>
    ⟨500, Json.obj (.cons "error" (.str "处理聊天请求失败")
      (.cons "details" (.str e)
        (.cons "requestId" (.str rid) .nil)))⟩

/-! ## Claim C8: upstream status 500, both paths -/

/-- The ERROR message `processStreamingResponse` sends when the upstream
streaming call failed with status 500 and the given body text. -/
def streamErrMsgRec (bodyText : String) : SSEMessage :=
  { type := .error,
    data := some (.str ("生成回复失败: "
      ++ streamUnavailableMsg (geminiStreamHttpErrorMsg 500 bodyText))) }

/-- C8: when the upstream HTTP call returns status 500, the non-streaming
path answers HTTP 500 with a JSON error body, and the streaming path —
whose start event was dropped while the stream was idle — emits exactly
one frame, an `event: error` frame (never an `event: done` frame), and
then closes the channel. -/
theorem C8_upstream_500 (bodyText rid cid now : String) :
    (handleChatRequestWrap rid (handleStandardChat validateAuth cid now
        (chatCall ⟨false, 500, bodyText, Json.null⟩))).status = 500
    ∧ getProp (handleChatRequestWrap rid (handleStandardChat validateAuth cid now
        (chatCall ⟨false, 500, bodyText, Json.null⟩))).body "error"
        = some (.str "处理聊天请求失败")
    ∧ (sendMessage true initSSE streamStartMsg).2 = []
    ∧ (processStreamingResponse true (attachController initSSE).1
        ((generateStreamingResponse ⟨false, 500, bodyText, none⟩).1.map jsToString)
        (generateStreamingResponse ⟨false, 500, bodyText, none⟩).2).2
      = [buildFrame (streamErrMsgRec bodyText)]
    ∧ (processStreamingResponse true (attachController initSSE).1
        ((generateStreamingResponse ⟨false, 500, bodyText, none⟩).1.map jsToString)
        (generateStreamingResponse ⟨false, 500, bodyText, none⟩).2).1.isClosed = true
    ∧ ∀ f ∈ (processStreamingResponse true (attachController initSSE).1
        ((generateStreamingResponse ⟨false, 500, bodyText, none⟩).1.map jsToString)
        (generateStreamingResponse ⟨false, 500, bodyText, none⟩).2).2,
        listIsPfx "event: error\n".data f.data = true
        ∧ listIsPfx "event: done\n".data f.data = false := by
  refine ⟨by rfl, by rfl, by rfl, by rfl, by rfl, ?_⟩
  intro f hf
  rw [show (processStreamingResponse true (attachController initSSE).1
      ((generateStreamingResponse ⟨false, 500, bodyText, none⟩).1.map jsToString)
      (generateStreamingResponse ⟨false, 500, bodyText, none⟩).2).2
    = [buildFrame (streamErrMsgRec bodyText)] from rfl,
    List.mem_singleton] at hf
  subst hf
  rw [buildFrame_blocks]
  exact ⟨by rfl, by rfl⟩

/-! ## Claim C9: the non-streaming response body -/

/-- C9: every successful non-streaming chat response is a single JSON
object whose body carries `message`, `timestamp` and `conversation_id` —
but no `user_id` field: `validateAuth` returns an object without the
`user_id` property its declared `AuthUser` type requires, so the
`user_id: user.user_id` property of the response is `undefined` and
`JSON.stringify` drops it. -/
theorem C9_user_id_missing (ai cid now rid : String) :
    (handleChatRequestWrap rid (handleStandardChat validateAuth cid now
        (.ok ai))).status = 200
    ∧ getProp (handleChatRequestWrap rid (handleStandardChat validateAuth cid now
        (.ok ai))).body "message" = some (.str ai)
    ∧ getProp (handleChatRequestWrap rid (handleStandardChat validateAuth cid now
        (.ok ai))).body "timestamp" = some (.str now)
    ∧ getProp (handleChatRequestWrap rid (handleStandardChat validateAuth cid now
        (.ok ai))).body "conversation_id" = some (.str cid)
    ∧ getProp validateAuth "user_id" = none
    ∧ getProp (handleChatRequestWrap rid (handleStandardChat validateAuth cid now
        (.ok ai))).body "user_id" = none :=
  ⟨by rfl, by rfl, by rfl, by rfl, by rfl, by rfl⟩
